import Mathlib

/-!
Shallow embedding of the `spike-sqlx` demo (src/src/main.rs): an encrypted
sqlite store driven through a ghost_actor boundary.  Machine integers are
modelled as `Nat` (`dht_loc` is a `u32`; rusqlite binds it as a plain SQL
INTEGER, so comparisons in the query are ordinary integer comparisons).
`created_at` (`chrono::DateTime<Utc>`) is modelled as an `Int` timestamp: the
store serializes it to an RFC3339 text column whose lexicographic order agrees
with chronological order, so only the total order matters to the code under
study.  Fallible engine calls (the `?` operators on rusqlite calls) are
modelled by an explicit `engineOk` flag / `Except` results.
-/

namespace SpikeSqlx

/-- A stored record: content hash (byte sequence, the BLOB primary key),
ring coordinate `dht_loc : u32`, and creation timestamp. -/
structure Entry where
  hash : List Nat
  dht_loc : Nat
  created_at : Int
deriving DecidableEq, Repr

/-- The persistent row set of the `entries` table (rows in insertion order;
sqlite keeps one row per primary key). -/
structure DbState where
  entries : List Entry
deriving DecidableEq, Repr

/-- Errors surfaced by the storage engine during a transaction:
a primary-key collision, or any other engine-level failure. -/
inductive SqlErr where
  | constraintViolation
  | engineFailure
deriving DecidableEq, Repr

/-- PRIMARY KEY check: does a row with this hash already exist? -/
def hashExists (rows : List Entry) (h : List Nat) : Bool :=
  rows.any fun r => decide (r.hash = h)

/-- Embedding of `Db::handle_insert` (src/src/main.rs:142-163): inside a
transaction, execute one INSERT binding hash, dht_loc, created_at; commit on
success.  A duplicate hash violates the BLOB PRIMARY KEY and fails the
statement; any failure drops the transaction (implicit rollback), leaving the
stored rows unchanged. -/
def handle_insert (engineOk : Bool) (entry : Entry) (s : DbState) :
    Except SqlErr Unit × DbState :=
  if engineOk then
    if hashExists s.entries entry.hash then
      (Except.error SqlErr.constraintViolation, s)
    else
      (Except.ok (), ⟨s.entries ++ [entry]⟩)
  else
    (Except.error SqlErr.engineFailure, s)

/-- The WHERE clause of the query statement (src/src/main.rs:184-188):
`dht_loc >= ?1 AND dht_loc <= ?2 AND created_at >= ?3 AND created_at <= ?4`. -/
def inQueryRange (dls dle : Nat) (cas cae : Int) (e : Entry) : Bool :=
  decide (dls ≤ e.dht_loc) && decide (e.dht_loc ≤ dle) &&
    decide (cas ≤ e.created_at) && decide (e.created_at ≤ cae)

/-- Embedding of `Db::handle_query` (src/src/main.rs:165-211): inside a
transaction, SELECT all rows satisfying the conjunctive range predicate, map
them back to `Entry`, then roll the (read-only) transaction back, so the row
set is returned to its pre-transaction value.  An engine read error aborts the
transaction and returns no rows. -/
def handle_query (engineOk : Bool) (dls dle : Nat) (cas cae : Int)
    (s : DbState) : Except SqlErr (List Entry) × DbState :=
  if engineOk then
    (Except.ok (s.entries.filter (inQueryRange dls dle cas cae)), s)
  else
    (Except.error SqlErr.engineFailure, s)

/-- Encryption key for sqlcipher (a byte vector). -/
structure Key where
  bytes : List Nat
deriving DecidableEq, Repr

/-- One uppercase hexadecimal digit, as produced by Rust `{:02X}` formatting
of a value below 16 ('0'-'9' then 'A'-'F'). -/
def hexDigit (n : Nat) : Char :=
  if n < 10 then Char.ofNat (48 + n) else Char.ofNat (55 + n)

/-- Rust `{:02X}` applied to one byte: two uppercase hex digits,
high nibble first. -/
def byteToHex (b : Nat) : List Char :=
  [hexDigit (b / 16), hexDigit (b % 16)]

/-- Embedding of `impl ToSql for Key` (src/src/main.rs:28-37): write each byte
of the key in order with `{:02X}` into one string.  `core::fmt::Write` for
`String` never errors, so the encoding is total. -/
def Key.to_sql (k : Key) : String :=
  String.mk (k.bytes.map byteToHex).flatten

/-- `get_encryption_key_shim` (src/src/main.rs:40-42): 32 zero bytes. -/
def get_encryption_key_shim : Key :=
  Key.mk (List.replicate 32 0)

/-- Is this character an uppercase hexadecimal digit? -/
def isUpperHexDigit (c : Char) : Bool :=
  (decide ('0' ≤ c) && decide (c ≤ '9')) ||
    (decide ('A' ≤ c) && decide (c ≤ 'F'))

/-- Which of the fallible bootstrap steps of `Db::new` fail in a given run
(each models the `?` on the corresponding rusqlite call). -/
structure FileEnv where
  openFails : Bool
  keyFails : Bool
  journalFails : Bool
  tableFails : Bool
  indexFails : Bool
deriving DecidableEq, Repr

/-- Schema objects present in the database file: table names and index
names.  sqlite holds at most one object per name. -/
structure SqlFile where
  tables : List String
  indexes : List String
deriving DecidableEq, Repr

/-- A database file with no schema objects yet (a freshly created file). -/
def emptyFile : SqlFile :=
  SqlFile.mk [] []

/-- An environment in which every bootstrap step succeeds. -/
def okEnv : FileEnv :=
  FileEnv.mk false false false false false

/-- The schema left behind by a successful bootstrap: the `entries` table and
the `entries_query_idx` composite index. -/
def initFile : SqlFile :=
  SqlFile.mk ["entries"] ["entries_query_idx"]

/-- One statement issued against the engine during `Db::new`. -/
inductive BootStep where
  | openFile
  | pragmaKey (hex : String)
  | pragmaJournal (mode : String)
  | createTableEntries
  | createIndexQueryIdx
deriving DecidableEq, Repr

/-- Is this bootstrap step a schema (DDL) statement? -/
def isSchemaStep : BootStep → Bool
  | BootStep.createTableEntries => true
  | BootStep.createIndexQueryIdx => true
  | _ => false

/-- Is this bootstrap step the encryption key pragma? -/
def isKeyStep : BootStep → Bool
  | BootStep.pragmaKey _ => true
  | _ => false

/-- The sequence of statements `Db::new` (src/src/main.rs:101-134) actually
issues before returning: open the file, `pragma key` with the hex-encoded
secret, `pragma journal_mode = WAL`, `CREATE TABLE IF NOT EXISTS entries`,
`CREATE INDEX IF NOT EXISTS entries_query_idx`.  Each `?` aborts the sequence
at the first failing step, so the trace stops there. -/
def bootTrace (env : FileEnv) : List BootStep :=
  if env.openFails then [] else
  if env.keyFails then [BootStep.openFile] else
  if env.journalFails then
    [BootStep.openFile, BootStep.pragmaKey get_encryption_key_shim.to_sql] else
  if env.tableFails then
    [BootStep.openFile, BootStep.pragmaKey get_encryption_key_shim.to_sql,
      BootStep.pragmaJournal "WAL"] else
  if env.indexFails then
    [BootStep.openFile, BootStep.pragmaKey get_encryption_key_shim.to_sql,
      BootStep.pragmaJournal "WAL", BootStep.createTableEntries] else
  [BootStep.openFile, BootStep.pragmaKey get_encryption_key_shim.to_sql,
    BootStep.pragmaJournal "WAL", BootStep.createTableEntries,
    BootStep.createIndexQueryIdx]

/-- `CREATE TABLE IF NOT EXISTS`: add the table only when absent. -/
def createTableIfNotExists (f : SqlFile) (name : String) : SqlFile :=
  if name ∈ f.tables then f else SqlFile.mk (f.tables ++ [name]) f.indexes

/-- `CREATE INDEX IF NOT EXISTS`: add the index only when absent. -/
def createIndexIfNotExists (f : SqlFile) (name : String) : SqlFile :=
  if name ∈ f.indexes then f else SqlFile.mk f.tables (f.indexes ++ [name])

/-- Effect of `Db::new` (src/src/main.rs:101-134) on the schema of the
database file: each `?`-guarded step either fails (aborting the open with an
error) or applies its schema effect; the two DDL statements are guarded by
IF NOT EXISTS. -/
def dbNewFile (env : FileEnv) (f : SqlFile) : Except String SqlFile :=
  if env.openFails then Except.error "open" else
  if env.keyFails then Except.error "key" else
  if env.journalFails then Except.error "journal_mode" else
  if env.tableFails then Except.error "create table" else
  let f1 := createTableIfNotExists f "entries"
  if env.indexFails then Except.error "create index" else
  Except.ok (createIndexIfNotExists f1 "entries_query_idx")

/-- Embedding of `spawn_database` (src/src/main.rs:83-93): a channel/sender is
created, then `Db::new(path).await?` runs; on bootstrap failure the `?`
returns the error and the sender handle is never returned to the caller. -/
def spawn_database (env : FileEnv) (f : SqlFile) : Except String SqlFile :=
  match dbNewFile env f with
  | Except.error e => Except.error e
  | Except.ok f1 => Except.ok f1

/-- A request accepted by the actor's inbound channel (the `DbApi` chan of
src/src/main.rs:66-80). -/
inductive Req where
  | insertReq (e : Entry)
  | queryReq (dls dle : Nat) (cas cae : Int)
deriving DecidableEq, Repr

/-- The response the actor sends back for one request. -/
inductive Resp where
  | insertResp (r : Except SqlErr Unit)
  | queryResp (r : Except SqlErr (List Entry))
deriving Repr

/-- Dispatch one accepted request to its handler (src/src/main.rs:141-212),
in a run where the engine itself does not fail. -/
def step (r : Req) (s : DbState) : Resp × DbState :=
  match r with
  | Req.insertReq e =>
    let p := handle_insert true e s
    (Resp.insertResp p.1, p.2)
  | Req.queryReq dls dle cas cae =>
    let p := handle_query true dls dle cas cae s
    (Resp.queryResp p.1, p.2)

/-- Modelled from the spec: the ghost_actor worker loop is not under src/
(the `ghost_chan!` macro and the ghost_actor crate supply it).  Per the spec,
requests are delivered through an ordered channel and processed one at a time
in acceptance order (FIFO), never two operations interleaved, so a run of the
actor is the left-to-right sequential execution of the accepted request
list against the exclusively owned store. -/
def runRequests : List Req → DbState → List Resp × DbState
  | [], s => ([], s)
  | r :: rs, s =>
    let p := step r s
    let q := runRequests rs p.2
    (p.1 :: q.1, q.2)

end SpikeSqlx

namespace SpikeSqlx

theorem handle_insert_ok (s s1 : DbState) (e : Entry)
    (h : handle_insert true e s = (Except.ok (), s1)) :
    hashExists s.entries e.hash = false ∧ s1.entries = s.entries ++ [e] := by
  by_cases hd : hashExists s.entries e.hash <;>
    simp [handle_insert, hd] at h
  exact ⟨by simp [hd], by rw [← h]⟩

theorem hashExists_false_filter (rows : List Entry) (h : List Nat)
    (hne : hashExists rows h = false) :
    rows.filter (fun r => decide (r.hash = h)) = [] := by
  rw [List.filter_eq_nil_iff]
  intro r hr
  have hall := List.any_eq_false.mp hne r hr
  simpa using hall

/-- C1: a query with bounds dht_loc_start, dht_loc_end, created_at_start,
created_at_end returns exactly the stored entries whose dht_loc lies in the
inclusive dht_loc range and whose created_at lies in the inclusive created_at
range (both predicates conjoined), up to ordering. -/
theorem spec_C1 (s : DbState) (dls dle : Nat) (cas cae : Int) :
    ∃ out, (handle_query true dls dle cas cae s).1 = Except.ok out ∧
      ∀ e : Entry, e ∈ out ↔
        e ∈ s.entries ∧ dls ≤ e.dht_loc ∧ e.dht_loc ≤ dle ∧
          cas ≤ e.created_at ∧ e.created_at ≤ cae := by
  refine ⟨s.entries.filter (inQueryRange dls dle cas cae), rfl, ?_⟩
  intro e
  simp [List.mem_filter, inQueryRange, and_assoc]

/-- C2: containment round-trip — if insert(e) succeeds then a query whose
ranges include e.dht_loc and e.created_at returns a sequence containing e,
and every returned entry has its fields within the query's ranges. -/
theorem spec_C2 (s s1 : DbState) (e : Entry) (dls dle : Nat) (cas cae : Int)
    (hins : handle_insert true e s = (Except.ok (), s1))
    (h1 : dls ≤ e.dht_loc) (h2 : e.dht_loc ≤ dle)
    (h3 : cas ≤ e.created_at) (h4 : e.created_at ≤ cae) :
    ∃ out, (handle_query true dls dle cas cae s1).1 = Except.ok out ∧
      e ∈ out ∧
      ∀ x ∈ out, dls ≤ x.dht_loc ∧ x.dht_loc ≤ dle ∧
        cas ≤ x.created_at ∧ x.created_at ≤ cae := by
  obtain ⟨-, hs1⟩ := handle_insert_ok s s1 e hins
  refine ⟨s1.entries.filter (inQueryRange dls dle cas cae), rfl, ?_, ?_⟩
  · rw [List.mem_filter]
    refine ⟨by simp [hs1], ?_⟩
    simp [inQueryRange, h1, h2, h3, h4]
  · intro x hx
    have := (List.mem_filter.mp hx).2
    simpa [inQueryRange, and_assoc] using this

theorem spec_C2_witness :
    ∃ out,
      (handle_query true 0 2 (-1) 1 (DbState.mk [Entry.mk [0] 1 0])).1 =
        Except.ok out ∧
      Entry.mk [0] 1 0 ∈ out ∧
      ∀ x ∈ out, 0 ≤ x.dht_loc ∧ x.dht_loc ≤ 2 ∧
        (-1 : Int) ≤ x.created_at ∧ x.created_at ≤ 1 :=
  spec_C2 (DbState.mk []) (DbState.mk [Entry.mk [0] 1 0]) (Entry.mk [0] 1 0)
    0 2 (-1) 1 rfl (by decide) (by decide) (by decide) (by decide)

/-- C3: after insert(e1) succeeds, inserting e2 with the same hash fails with
a constraint error, the failed insert leaves the store unchanged, and the
store holds exactly e1 for that hash. -/
theorem spec_C3 (s s1 : DbState) (e1 e2 : Entry) (hh : e2.hash = e1.hash)
    (h1 : handle_insert true e1 s = (Except.ok (), s1)) :
    (handle_insert true e2 s1).1 = Except.error SqlErr.constraintViolation ∧
    (handle_insert true e2 s1).2 = s1 ∧
    s1.entries.filter (fun r => decide (r.hash = e1.hash)) = [e1] := by
  obtain ⟨hne, hs1⟩ := handle_insert_ok s s1 e1 h1
  have hex : hashExists s1.entries e2.hash = true := by
    rw [hs1, hh]
    simp [hashExists]
  refine ⟨by simp [handle_insert, hex], by simp [handle_insert, hex], ?_⟩
  rw [hs1, List.filter_append, hashExists_false_filter s.entries e1.hash hne]
  simp

theorem spec_C3_witness :
    (handle_insert true (Entry.mk [1] 5 7) (DbState.mk [Entry.mk [1] 0 0])).1 =
      Except.error SqlErr.constraintViolation ∧
    (handle_insert true (Entry.mk [1] 5 7) (DbState.mk [Entry.mk [1] 0 0])).2 =
      DbState.mk [Entry.mk [1] 0 0] ∧
    (DbState.mk [Entry.mk [1] 0 0]).entries.filter
      (fun r => decide (r.hash = (Entry.mk [1] 0 0).hash)) = [Entry.mk [1] 0 0] :=
  spec_C3 (DbState.mk []) (DbState.mk [Entry.mk [1] 0 0])
    (Entry.mk [1] 0 0) (Entry.mk [1] 5 7) rfl rfl

/-- C7: a query never mutates the store — for every engine outcome, every
range descriptor and every store state, the state after handle_query equals
the state before it. -/
theorem spec_C7 (engineOk : Bool) (dls dle : Nat) (cas cae : Int)
    (s : DbState) :
    (handle_query engineOk dls dle cas cae s).2 = s := by
  cases engineOk <;> rfl

/-- C10: a query whose dht_loc bounds are inverted (start > end) returns the
empty sequence without error and without wrapping around the u32 space. -/
theorem spec_C10 (s : DbState) (dls dle : Nat) (cas cae : Int)
    (h : dle < dls) :
    handle_query true dls dle cas cae s = (Except.ok [], s) := by
  have hnil : s.entries.filter (inQueryRange dls dle cas cae) = [] := by
    rw [List.filter_eq_nil_iff]
    intro e _
    simp only [inQueryRange, Bool.and_eq_true, decide_eq_true_eq, not_and]
    intro h1 h2
    omega
  simp [handle_query, hnil]

theorem spec_C10_witness :
    handle_query true 5 3 0 10 (DbState.mk [Entry.mk [1] 4 2]) =
      (Except.ok [], DbState.mk [Entry.mk [1] 4 2]) :=
  spec_C10 (DbState.mk [Entry.mk [1] 4 2]) 5 3 0 10 (by decide)

end SpikeSqlx

namespace SpikeSqlx

theorem flatten_byteToHex_length (l : List Nat) :
    ((l.map byteToHex).flatten).length = 2 * l.length := by
  induction l with
  | nil => rfl
  | cons a t ih =>
    simp only [List.map_cons, List.flatten_cons, List.length_append,
      List.length_cons, byteToHex, List.length_nil] at ih ⊢
    omega

theorem hexDigit_isUpperHex (n : Nat) (h : n < 16) :
    isUpperHexDigit (hexDigit n) = true := by
  interval_cases n <;> decide

theorem flatten_byteToHex_get (l : List Nat) (i b : Nat)
    (h : l[i]? = some b) :
    ((l.map byteToHex).flatten)[2 * i]? = some (hexDigit (b / 16)) ∧
    ((l.map byteToHex).flatten)[2 * i + 1]? = some (hexDigit (b % 16)) := by
  induction l generalizing i with
  | nil => simp at h
  | cons a t ih =>
    cases i with
    | zero =>
      simp only [List.getElem?_cons_zero, Option.some.injEq] at h
      subst h
      simp [byteToHex]
    | succ j =>
      rw [List.getElem?_cons_succ] at h
      obtain ⟨h1, h2⟩ := ih j h
      have e1 : 2 * (j + 1) = 2 * j + 1 + 1 := by omega
      have e2 : 2 * (j + 1) + 1 = (2 * j + 1) + 1 + 1 := by omega
      constructor
      · rw [e1]
        simpa [byteToHex] using h1
      · rw [e2]
        simpa [byteToHex] using h2

/-- C4: for a 32-byte secret, `Key.to_sql` yields a 64-character string of
uppercase hex digits only, mapping byte i to the two hex digits at positions
2i and 2i+1 (high nibble first); the encoding is a total function of the
bytes (deterministic, never failing). -/
theorem spec_C4 (k : Key) (hlen : k.bytes.length = 32)
    (hbytes : ∀ b ∈ k.bytes, b < 256) :
    k.to_sql.length = 64 ∧
    (∀ c ∈ k.to_sql.data, isUpperHexDigit c = true) ∧
    (∀ i b : Nat, k.bytes[i]? = some b →
      k.to_sql.data[2 * i]? = some (hexDigit (b / 16)) ∧
      k.to_sql.data[2 * i + 1]? = some (hexDigit (b % 16))) ∧
    ∀ k2 : Key, k2.bytes = k.bytes → k2.to_sql = k.to_sql := by
  refine ⟨?_, ?_, ?_, ?_⟩
  · show ((k.bytes.map byteToHex).flatten).length = 64
    rw [flatten_byteToHex_length, hlen]
  · intro c hc
    have hc2 : c ∈ (k.bytes.map byteToHex).flatten := hc
    rw [List.mem_flatten] at hc2
    obtain ⟨cl, hcl, hccl⟩ := hc2
    rw [List.mem_map] at hcl
    obtain ⟨b, hbl, rfl⟩ := hcl
    have hb : b < 256 := hbytes b hbl
    simp only [byteToHex, List.mem_cons, List.not_mem_nil, or_false] at hccl
    rcases hccl with h | h
    · exact h ▸ hexDigit_isUpperHex (b / 16) (by omega)
    · exact h ▸ hexDigit_isUpperHex (b % 16) (by omega)
  · intro i b h
    exact flatten_byteToHex_get k.bytes i b h
  · intro k2 h
    have : k2 = k := by
      cases k2
      cases k
      simpa using h
    rw [this]

theorem spec_C4_witness :
    get_encryption_key_shim.to_sql.length = 64 ∧
    (∀ c ∈ get_encryption_key_shim.to_sql.data, isUpperHexDigit c = true) ∧
    (∀ i b : Nat, get_encryption_key_shim.bytes[i]? = some b →
      get_encryption_key_shim.to_sql.data[2 * i]? = some (hexDigit (b / 16)) ∧
      get_encryption_key_shim.to_sql.data[2 * i + 1]? =
        some (hexDigit (b % 16))) ∧
    ∀ k2 : Key, k2.bytes = get_encryption_key_shim.bytes →
      k2.to_sql = get_encryption_key_shim.to_sql :=
  spec_C4 get_encryption_key_shim (by decide) (by decide)

/-- C5: bootstrap is idempotent — running `Db::new` against a fresh file
succeeds, running it again against the resulting file succeeds and leaves the
schema unchanged, and the final schema holds exactly one `entries` table and
one `entries_query_idx` index. -/
theorem spec_C5 :
    dbNewFile okEnv emptyFile = Except.ok initFile ∧
    dbNewFile okEnv initFile = Except.ok initFile ∧
    initFile.tables.count "entries" = 1 ∧
    initFile.indexes.count "entries_query_idx" = 1 :=
  ⟨rfl, rfl, rfl, rfl⟩

/-- C6: in every run of `Db::new`, whatever steps fail, any schema statement
(table or index creation) that is actually issued comes strictly after the
encryption-key pragma in the issued-statement trace. -/
theorem spec_C6 (env : FileEnv) (i : Fin (bootTrace env).length)
    (hs : isSchemaStep ((bootTrace env).get i) = true) :
    ∃ m : Fin (bootTrace env).length, m.val < i.val ∧
      isKeyStep ((bootTrace env).get m) = true := by
  revert i
  obtain ⟨o, k, j, t, ix⟩ := env
  cases o <;> cases k <;> cases j <;> cases t <;> cases ix <;> decide

theorem spec_C6_witness :
    ∃ m : Fin (bootTrace okEnv).length, m.val < 3 ∧
      isKeyStep ((bootTrace okEnv).get m) = true :=
  spec_C6 okEnv ⟨3, by decide⟩ (by decide)

/-- C8: if any bootstrap step fails, `spawn_database` returns an error and no
handle is produced, so no insert or query can be issued against a partially
initialized store. -/
theorem spec_C8 (env : FileEnv) (f : SqlFile)
    (hfail : env.openFails = true ∨ env.keyFails = true ∨
      env.journalFails = true ∨ env.tableFails = true ∨
      env.indexFails = true) :
    ∀ handle : SqlFile, spawn_database env f ≠ Except.ok handle := by
  intro handle
  obtain ⟨o, k, j, t, ix⟩ := env
  cases o <;> cases k <;> cases j <;> cases t <;> cases ix <;>
    simp_all [spawn_database, dbNewFile]

theorem spec_C8_witness :
    spawn_database (FileEnv.mk true false false false false) emptyFile ≠
      Except.ok emptyFile :=
  spec_C8 (FileEnv.mk true false false false false) emptyFile (Or.inl rfl)
    emptyFile

end SpikeSqlx

namespace SpikeSqlx

theorem runRequests_length (reqs : List Req) (s : DbState) :
    (runRequests reqs s).1.length = reqs.length := by
  induction reqs generalizing s with
  | nil => rfl
  | cons r rs ih => simp [runRequests, ih]

theorem runRequests_append (l1 l2 : List Req) (s : DbState) :
    runRequests (l1 ++ l2) s =
      ((runRequests l1 s).1 ++ (runRequests l2 (runRequests l1 s).2).1,
        (runRequests l2 (runRequests l1 s).2).2) := by
  induction l1 generalizing s with
  | nil => simp [runRequests]
  | cons r rs ih => simp [runRequests, ih]

theorem step_mono (r : Req) (s : DbState) (e : Entry)
    (h : e ∈ s.entries) : e ∈ ((step r s).2).entries := by
  cases r with
  | insertReq e2 =>
    simp only [step, handle_insert]
    by_cases hd : hashExists s.entries e2.hash <;> simp [hd, h]
  | queryReq dls dle cas cae => simpa [step, handle_query] using h

theorem runRequests_mono (reqs : List Req) (s : DbState) (e : Entry)
    (h : e ∈ s.entries) : e ∈ ((runRequests reqs s).2).entries := by
  induction reqs generalizing s with
  | nil => exact h
  | cons r rs ih =>
    simpa [runRequests] using ih (step r s).2 (step_mono r s e h)

theorem runRequests_insert_resp (l1 rest : List Req) (e : Entry)
    (s : DbState) :
    (runRequests (l1 ++ Req.insertReq e :: rest) s).1[l1.length]? =
      some (Resp.insertResp (handle_insert true e (runRequests l1 s).2).1) := by
  induction l1 generalizing s with
  | nil => simp [runRequests, step]
  | cons r rs ih => simpa [runRequests] using ih (step r s).2

theorem runRequests_cons_insert_state (l1 rest : List Req) (e : Entry)
    (s : DbState) :
    (runRequests (l1 ++ Req.insertReq e :: rest) s).2 =
      (runRequests rest (handle_insert true e (runRequests l1 s).2).2).2 := by
  rw [runRequests_append]
  simp [runRequests, step]

theorem runRequests_query_last (l : List Req) (dls dle : Nat)
    (cas cae : Int) (s : DbState) :
    (runRequests (l ++ [Req.queryReq dls dle cas cae]) s).1.getLast? =
      some (Resp.queryResp (Except.ok
        ((runRequests l s).2.entries.filter (inQueryRange dls dle cas cae)))) := by
  rw [runRequests_append]
  have hq : runRequests [Req.queryReq dls dle cas cae] (runRequests l s).2 =
      ([Resp.queryResp (Except.ok ((runRequests l s).2.entries.filter
          (inQueryRange dls dle cas cae)))], (runRequests l s).2) := rfl
  rw [hq, List.getLast?_concat]

/-- C9: operations are executed serially in channel-acceptance order; in
particular, in any accepted request sequence, a query accepted after an
insert whose response was ok returns a result containing that insert's entry
whenever the entry falls within the query's ranges. -/
theorem spec_C9 (l1 l2 : List Req) (e : Entry) (dls dle : Nat)
    (cas cae : Int) (s : DbState)
    (hins : (runRequests (l1 ++ Req.insertReq e ::
        (l2 ++ [Req.queryReq dls dle cas cae])) s).1[l1.length]? =
      some (Resp.insertResp (Except.ok ())))
    (h1 : dls ≤ e.dht_loc) (h2 : e.dht_loc ≤ dle)
    (h3 : cas ≤ e.created_at) (h4 : e.created_at ≤ cae) :
    ∃ out,
      (runRequests (l1 ++ Req.insertReq e ::
          (l2 ++ [Req.queryReq dls dle cas cae])) s).1.getLast? =
        some (Resp.queryResp (Except.ok out)) ∧
      e ∈ out := by
  rw [runRequests_insert_resp l1 (l2 ++ [Req.queryReq dls dle cas cae]) e s]
    at hins
  have hfst : (handle_insert true e (runRequests l1 s).2).1 = Except.ok () :=
    Resp.insertResp.inj (Option.some.inj hins)
  have hpair : handle_insert true e (runRequests l1 s).2 =
      (Except.ok (), (handle_insert true e (runRequests l1 s).2).2) := by
    rw [← hfst]
  obtain ⟨-, hs2⟩ := handle_insert_ok _ _ e hpair
  have he2 : e ∈ (handle_insert true e (runRequests l1 s).2).2.entries := by
    rw [hs2]
    simp
  have hassoc : l1 ++ Req.insertReq e :: (l2 ++ [Req.queryReq dls dle cas cae]) =
      (l1 ++ Req.insertReq e :: l2) ++ [Req.queryReq dls dle cas cae] := by
    simp
  rw [hassoc]
  refine ⟨_, runRequests_query_last _ dls dle cas cae s, ?_⟩
  apply List.mem_filter.mpr
  refine ⟨?_, by simp [inQueryRange, h1, h2, h3, h4]⟩
  rw [runRequests_cons_insert_state l1 l2 e s]
  exact runRequests_mono l2 _ e he2

theorem spec_C9_witness :
    ∃ out,
      (runRequests ([] ++ Req.insertReq (Entry.mk [0] 1 0) ::
          ([] ++ [Req.queryReq 0 2 (-1) 1])) (DbState.mk [])).1.getLast? =
        some (Resp.queryResp (Except.ok out)) ∧
      Entry.mk [0] 1 0 ∈ out :=
  spec_C9 [] [] (Entry.mk [0] 1 0) 0 2 (-1) 1 (DbState.mk []) rfl
    (by decide) (by decide) (by decide) (by decide)

end SpikeSqlx
